import Mathlib

/-!
Verification of the campaign-analytics pipeline in
`src/hooks/useCampaignData.ts`.

The hook manipulates JavaScript `Date` values (epoch milliseconds) through a
fixed host timezone. We model an instant as an `Int` of epoch milliseconds and
a possibly-invalid date (`Invalid Date`, whose time value is `NaN`) as
`Option Int` with `none` playing the role of `NaN`. The host timezone is a
fixed offset `off` in minutes east of UTC (real offsets lie in
`[-840, 840]`; theorems assume at most `[-1440, 1440]`), so local time of an
instant `t` is `t + off * 60000`. Daylight-saving transitions are not
modelled: the host zone is a fixed offset.

Calendar arithmetic follows the ECMAScript specification: `Day`, `MakeDay`,
`YearFromTime` (defined there as the largest year whose first day starts at
or before the instant), the two-digit-year rule of the `Date(y, m, d)`
constructor (years 0..99 are mapped to 1900..1999) and `TimeClip` (time
values beyond ±8.64e15 ms become `NaN`). `yearFromDays` is stated by
counting, over the years 1..10001 that cover every value reachable in this
development, exactly mirroring ECMAScript's "largest year such that" clause.
-/

/-- Milliseconds in a local day. -/
def msPerDay : Int := 86400000

/-- Gregorian leap-year predicate (proleptic). -/
def isLeap (y : Int) : Bool := decide (y % 4 = 0 ∧ y % 100 ≠ 0 ∨ y % 400 = 0)

/-- Length in days of 1-based month `m` of a year with leapness `leap`. -/
def monthLen (leap : Bool) (m : Int) : Int :=
  if m = 2 then (if leap then 29 else 28)
  else if m = 4 ∨ m = 6 ∨ m = 9 ∨ m = 11 then 30
  else 31

/-- Days strictly before 1-based month `m` within a year of leapness `leap`. -/
def cumDays (leap : Bool) (m : Int) : Int :=
  (if m ≤ 1 then 0
   else if m ≤ 2 then 31
   else if m ≤ 3 then 59
   else if m ≤ 4 then 90
   else if m ≤ 5 then 120
   else if m ≤ 6 then 151
   else if m ≤ 7 then 181
   else if m ≤ 8 then 212
   else if m ≤ 9 then 243
   else if m ≤ 10 then 273
   else if m ≤ 11 then 304
   else 334)
  + (if leap ∧ 3 ≤ m then 1 else 0)

/-- Days from the epoch 1970-01-01 to January 1 of year `y` in the proleptic
Gregorian calendar; the closed formula is valid for `y ≥ 1`, the only years
this development evaluates it at. -/
def daysToYearStart (y : Int) : Int :=
  365 * (y - 1) + (y - 1) / 4 - (y - 1) / 100 + (y - 1) / 400 - 719162

/-- Calendar year containing epoch-day `z`, following ECMAScript
`YearFromTime`: the largest year whose first day is at or before `z`,
realized by counting over the years 1..10001 (they cover every day number
reachable from the pipeline's dates). -/
def yearFromDays (z : Int) : Int :=
  (((Finset.Icc (1 : Int) 10001).filter (fun y => daysToYearStart y ≤ z)).card : Int)

/-- The 1-based month of a year of leapness `leap` containing 0-based day of
year `doy` (ECMAScript `MonthFromTime`). -/
def monthFromDoy (leap : Bool) (doy : Int) : Int :=
  if doy ≤ 30 then 1
  else if doy ≤ 58 + (if leap then 1 else 0) then 2
  else if doy ≤ 89 + (if leap then 1 else 0) then 3
  else if doy ≤ 119 + (if leap then 1 else 0) then 4
  else if doy ≤ 150 + (if leap then 1 else 0) then 5
  else if doy ≤ 180 + (if leap then 1 else 0) then 6
  else if doy ≤ 211 + (if leap then 1 else 0) then 7
  else if doy ≤ 242 + (if leap then 1 else 0) then 8
  else if doy ≤ 272 + (if leap then 1 else 0) then 9
  else if doy ≤ 303 + (if leap then 1 else 0) then 10
  else if doy ≤ 333 + (if leap then 1 else 0) then 11
  else 12

/-- Epoch-day number of the local day containing instant `t` under a zone
offset of `off` minutes (ECMAScript `Day(LocalTime(t))`). -/
def localDays (off t : Int) : Int := (t + off * 60000) / msPerDay

/-- Milliseconds since local midnight of instant `t` (ECMAScript
`TimeWithinDay(LocalTime(t))`). -/
def localTimeOfDay (off t : Int) : Int := (t + off * 60000) % msPerDay

/-- Calendar components `(year, month, day)` (month 1-based) of epoch-day
`z` (ECMAScript `YearFromTime` / `MonthFromTime` / `DateFromTime`). -/
def civilFromDays (z : Int) : Int × Int × Int :=
  (yearFromDays z,
   monthFromDoy (isLeap (yearFromDays z)) (z - daysToYearStart (yearFromDays z)),
   z - daysToYearStart (yearFromDays z)
     - cumDays (isLeap (yearFromDays z))
         (monthFromDoy (isLeap (yearFromDays z)) (z - daysToYearStart (yearFromDays z)))
     + 1)

/-- Local calendar components `(year, month, day)` (month 1-based) of instant
`t` under zone offset `off`: the triple JavaScript's `getFullYear`,
`getMonth() + 1` and `getDate` return. -/
def localCivil (off t : Int) : Int × Int × Int :=
  civilFromDays (localDays off t)

/-- ECMAScript `MakeDay(y, m, d)` with 0-based month `m` and 1-based day `d`:
months outside 0..11 roll the year, days outside the month roll the month. -/
def ecMakeDay (y m d : Int) : Int :=
  let ym := y + m / 12
  let mn := m % 12
  daysToYearStart ym + cumDays (isLeap ym) (mn + 1) + (d - 1)

/-- ECMAScript `TimeClip`: time values beyond ±8.64e15 milliseconds are NaN
(`none`), i.e. the date is invalid. -/
def timeClip (t : Int) : Option Int :=
  if t ≤ 8640000000000000 ∧ -8640000000000000 ≤ t then some t else none

/-- ECMAScript two-digit-year rule of the `Date` constructor called with at
least two arguments: integer years 0..99 denote 1900..1999. -/
def fullYear (y : Int) : Int := if 0 ≤ y ∧ y ≤ 99 then 1900 + y else y

/-- The JavaScript expression `new Date(y, m, d)` (0-based month `m`) under
zone offset `off`, where each argument may already be `NaN` (`none`): the
constructed instant is local midnight of the (rolled) calendar day, clipped
to the representable range field. -/
def jsNewDate3 (off : Int) (y m d : Option Int) : Option Int := do
  let y ← y
  let m ← m
  let d ← d
  timeClip (ecMakeDay (fullYear y) m d * msPerDay - off * 60000)

/-- Character-level semantics of the JavaScript `dateStr.split('-')`:
consecutive separators yield empty components and the empty string yields one
empty component, as in JavaScript. -/
def splitDash : List Char → List (List Char)
  | [] => [[]]
  | c :: rest =>
    if c = '-' then [] :: splitDash rest
    else
      match splitDash rest with
      | r :: rs => (c :: r) :: rs
      | [] => [[c]]

/-- Decimal-digit test. -/
def isDigit (c : Char) : Bool := decide (48 ≤ c.toNat ∧ c.toNat ≤ 57)

/-- Value of a decimal digit string. -/
def digitsVal (l : List Char) : Nat := l.foldl (fun a c => 10 * a + (c.toNat - 48)) 0

/-- Value model of JavaScript `Number(s)` on the string forms whose value
the claims below inspect: the empty string converts to 0 and an optional
sign followed by decimal digits to the signed integer value. Other
numeric-literal forms (fractional, exponent, radix, whitespace-padded) are
left at `none`; every theorem that asserts a NaN result for a whole class
of strings guards its input with the full-grammar recognizer
`isNumericLit`, of which this partial value model is proved sound
(`isNumericLit_of_jsNumberChars`). -/
def jsNumberChars : List Char → Option Int
  | [] => some 0
  | c :: cs =>
    if c = '-' then
      if cs ≠ [] ∧ cs.all isDigit then some (-(digitsVal cs : Int)) else none
    else if c = '+' then
      if cs ≠ [] ∧ cs.all isDigit then some (digitsVal cs : Int) else none
    else if (c :: cs).all isDigit then some (digitsVal (c :: cs) : Int) else none

/-- The hook's Local-Date Normalizer `parseLocalDate`
(src/hooks/useCampaignData.ts lines 32-35): split the string on `'-'`,
convert the components with `Number`, and build `new Date(year, month - 1,
day)` in the host zone `off`. A missing component (`undefined` from the
destructuring) behaves like NaN once it reaches the constructor's
arithmetic, which is how `none` propagates here. -/
def parseLocalDate (off : Int) (s : String) : Option Int :=
  jsNewDate3 off
    (((splitDash s.data).map jsNumberChars).getD 0 none)
    ((((splitDash s.data).map jsNumberChars).getD 1 none).map (· - 1))
    (((splitDash s.data).map jsNumberChars).getD 2 none)

/-- ECMAScript `setDate(v)` on a valid date `t`: replace the local
day-of-month by `v`, keeping local year, month and time of day, rolling
out-of-range days into adjacent months, then clip. -/
def jsSetDate (off t v : Int) : Option Int :=
  timeClip (ecMakeDay (localCivil off t).1 ((localCivil off t).2.1 - 1) v * msPerDay
    + localTimeOfDay off t - off * 60000)

/-- date-fns `subDays(date, n)`: a copy of the date with
`setDate(getDate() - n)`; invalid dates propagate. -/
def subDays (off : Int) (d : Option Int) (n : Int) : Option Int :=
  d.bind (fun t => jsSetDate off t ((localCivil off t).2.2 - n))

/-- date-fns `startOfDay`: the same local day at 00:00:00.000. -/
def startOfDay (off : Int) (d : Option Int) : Option Int :=
  d.bind (fun t => timeClip (localDays off t * msPerDay - off * 60000))

/-- date-fns `endOfDay`: the same local day at 23:59:59.999. -/
def endOfDay (off : Int) (d : Option Int) : Option Int :=
  d.bind (fun t => timeClip (localDays off t * msPerDay + 86399999 - off * 60000))

/- ### Calendar lemmas -/

/-- Start-of-year day numbers are monotone in the year. -/
theorem daysToYearStart_mono {a b : Int} (h : a ≤ b) :
    daysToYearStart a ≤ daysToYearStart b := by
  unfold daysToYearStart
  omega

/-- Stepping one year advances the start-of-year day count by the year's
length. -/
theorem daysToYearStart_succ (y : Int) :
    daysToYearStart (y + 1) = daysToYearStart y + (if isLeap y then 366 else 365) := by
  simp only [isLeap, decide_eq_true_eq]
  split
  · unfold daysToYearStart; omega
  · unfold daysToYearStart; omega

/-- Characterization of `yearFromDays`: a day number lying inside year `y`
(for `y` in the covered range) is mapped to `y`. -/
theorem yearFromDays_eq {y z : Int} (h1 : 1 ≤ y) (h2 : y ≤ 10000)
    (hlo : daysToYearStart y ≤ z) (hhi : z < daysToYearStart (y + 1)) :
    yearFromDays z = y := by
  unfold yearFromDays
  have hf : (Finset.Icc (1 : Int) 10001).filter (fun a => daysToYearStart a ≤ z)
      = Finset.Icc (1 : Int) y := by
    ext a
    simp only [Finset.mem_filter, Finset.mem_Icc]
    constructor
    · rintro ⟨⟨ha1, _⟩, ha⟩
      refine ⟨ha1, ?_⟩
      by_contra hc
      push_neg at hc
      have := daysToYearStart_mono (show y + 1 ≤ a by omega)
      omega
    · rintro ⟨ha1, hay⟩
      exact ⟨⟨ha1, by omega⟩, le_trans (daysToYearStart_mono hay) hlo⟩
  rw [hf, Int.card_Icc]
  omega

/-- Months are at most 31 days long. -/
theorem monthLen_le (leap : Bool) (m : Int) : monthLen leap m ≤ 31 := by
  unfold monthLen
  cases leap <;> split_ifs <;> omega

/-- Finite check behind `cumDays_bounds` and `monthFromDoy_eq`, stated over
bounded naturals so the kernel can decide all 744 month/day cases. -/
theorem monthDay_core : ∀ (leap : Bool), ∀ m' : Nat, m' < 12 → ∀ d' : Nat, d' < 31 →
    ((d' : Int) + 1 ≤ monthLen leap ((m' : Int) + 1) →
      (0 ≤ cumDays leap ((m' : Int) + 1) + ((d' : Int) + 1) - 1 ∧
        cumDays leap ((m' : Int) + 1) + ((d' : Int) + 1) - 1 < (if leap then 366 else 365)) ∧
      monthFromDoy leap (cumDays leap ((m' : Int) + 1) + ((d' : Int) + 1) - 1)
        = (m' : Int) + 1) := by
  decide

/-- Day-of-year offsets of valid month/day pairs stay within the year. -/
theorem cumDays_bounds {leap : Bool} {m d : Int} (hm1 : 1 ≤ m) (hm2 : m ≤ 12)
    (hd1 : 1 ≤ d) (hd2 : d ≤ monthLen leap m) :
    0 ≤ cumDays leap m + d - 1 ∧
      cumDays leap m + d - 1 < (if leap then 366 else 365) := by
  have hm : m = ((m - 1).toNat : Int) + 1 := by omega
  have hd : d = ((d - 1).toNat : Int) + 1 := by omega
  rw [hm] at hd2 ⊢
  rw [hd] at hd2 ⊢
  have hle := monthLen_le leap (((m - 1).toNat : Int) + 1)
  exact (monthDay_core leap _ (by omega) _ (by omega) hd2).1

/-- The month of the day-of-year determined by a valid month/day pair is that
month. -/
theorem monthFromDoy_eq {leap : Bool} {m d : Int} (hm1 : 1 ≤ m) (hm2 : m ≤ 12)
    (hd1 : 1 ≤ d) (hd2 : d ≤ monthLen leap m) :
    monthFromDoy leap (cumDays leap m + d - 1) = m := by
  have hm : m = ((m - 1).toNat : Int) + 1 := by omega
  have hd : d = ((d - 1).toNat : Int) + 1 := by omega
  rw [hm] at hd2 ⊢
  rw [hd] at hd2 ⊢
  have hle := monthLen_le leap (((m - 1).toNat : Int) + 1)
  exact (monthDay_core leap _ (by omega) _ (by omega) hd2).2

/-- For in-range months, `ecMakeDay` is start-of-year plus month offset plus
day offset. -/
theorem ecMakeDay_eq {y m d : Int} (hm1 : 1 ≤ m) (hm2 : m ≤ 12) :
    ecMakeDay y (m - 1) d = daysToYearStart y + cumDays (isLeap y) m + (d - 1) := by
  unfold ecMakeDay
  have h1 : (m - 1) / 12 = 0 := by omega
  have h2 : (m - 1) % 12 = m - 1 := by omega
  rw [h1, h2]
  ring_nf

/-- Round trip of the calendar arithmetic on day numbers: reading the
calendar components of the day `ecMakeDay y (m-1) d` gives back
`(y, m, d)`. -/
theorem civilFromDays_makeDay {y m d : Int} (hy1 : 1 ≤ y) (hy2 : y ≤ 10000)
    (hm1 : 1 ≤ m) (hm2 : m ≤ 12) (hd1 : 1 ≤ d) (hd2 : d ≤ monthLen (isLeap y) m) :
    civilFromDays (ecMakeDay y (m - 1) d) = (y, m, d) := by
  have hdoy := cumDays_bounds hm1 hm2 hd1 hd2
  have hmk := ecMakeDay_eq (y := y) (d := d) hm1 hm2
  have hyz : yearFromDays (ecMakeDay y (m - 1) d) = y := by
    apply yearFromDays_eq hy1 hy2
    · rw [hmk]; omega
    · rw [hmk, daysToYearStart_succ]
      rcases hdoy with ⟨_, hub⟩
      split at hub <;> split <;> simp_all <;> omega
  unfold civilFromDays
  rw [hyz, hmk]
  have harg : daysToYearStart y + cumDays (isLeap y) m + (d - 1) - daysToYearStart y
      = cumDays (isLeap y) m + d - 1 := by ring
  rw [harg, monthFromDoy_eq hm1 hm2 hd1 hd2]
  simp only [Prod.mk.injEq]
  exact ⟨by trivial, by trivial, by ring⟩

/-- Round trip at the heart of the timezone-safe date handling: reading the
local calendar components of the instant `ecMakeDay y (m-1) d * msPerDay -
off * 60000` (local midnight of `(y, m, d)`) gives back `(y, m, d)`, for any
zone offset. -/
theorem localCivil_makeDay {off y m d : Int} (hy1 : 1 ≤ y) (hy2 : y ≤ 10000)
    (hm1 : 1 ≤ m) (hm2 : m ≤ 12) (hd1 : 1 ≤ d) (hd2 : d ≤ monthLen (isLeap y) m) :
    localCivil off (ecMakeDay y (m - 1) d * msPerDay - off * 60000) = (y, m, d) := by
  have hz : localDays off (ecMakeDay y (m - 1) d * msPerDay - off * 60000)
      = ecMakeDay y (m - 1) d := by
    unfold localDays msPerDay
    omega
  unfold localCivil
  rw [hz]
  exact civilFromDays_makeDay hy1 hy2 hm1 hm2 hd1 hd2

/- ### Data model and the csvParser collaborators -/

/-- A record's date value as it leaves the external parser: either a
`YYYY-MM-DD`-style string or an already-resolved date value (spec §6). -/
inductive JsDateVal where
  | str (s : String)
  | date (t : Option Int)
deriving DecidableEq

/-- One row of campaign performance data (spec §3 `CampaignRecord`); the
numeric measures are modelled as exact rationals. -/
structure CampaignData where
  date : JsDateVal
  creativeId : String
  spend : ℚ
  conversions : ℚ
  reach : ℚ
  impressions : ℚ
  engagement : ℚ
deriving DecidableEq

/-- Date normalization used throughout the pipeline (src line 107): strings
go through `parseLocalDate`, any other value through the generic date
coercion (`new Date(value)`, the identity on a date value). -/
def normalizeTime (off : Int) : JsDateVal → Option Int
  | .str s => parseLocalDate off s
  | .date t => t

/-- The selected window (src `DateRange`; the fields are named `rFrom` and
`rTo` because `from` is a Lean keyword). They hold whatever `Date` values the
producing code put there, so possibly-invalid dates are representable. -/
structure DateRange where
  rFrom : Option Int
  rTo : Option Int
deriving DecidableEq

/-- The five scalar rollups of spec §3. -/
structure Aggregates where
  totalSpend : ℚ
  totalConversions : ℚ
  totalReach : ℚ
  totalImpressions : ℚ
  totalEngagement : ℚ
deriving DecidableEq

/-- Modelled from the spec: the external `aggregateMetrics` of
`src/lib/csvParser.ts` (absent from src/), per §4.3: the sum of each numeric
measure across the records, 0 for an empty subset. -/
def aggregateMetrics (l : List CampaignData) : Aggregates :=
  { totalSpend := (l.map (·.spend)).sum
    totalConversions := (l.map (·.conversions)).sum
    totalReach := (l.map (·.reach)).sum
    totalImpressions := (l.map (·.impressions)).sum
    totalEngagement := (l.map (·.engagement)).sum }

/-- src `DashboardMetrics`: the five sums plus the two derived ratios. -/
structure DashboardMetrics extends Aggregates where
  avgCPA : ℚ
  ctr : ℚ
deriving DecidableEq

/-- The hook's `metrics` computation (src lines 81-91): spread the aggregate
sums and add the two ratios, each guarded against a non-positive
denominator. -/
def metrics (filtered : List CampaignData) : DashboardMetrics :=
  { aggregateMetrics filtered with
    avgCPA :=
      if (aggregateMetrics filtered).totalConversions > 0 then
        (aggregateMetrics filtered).totalSpend / (aggregateMetrics filtered).totalConversions
      else 0
    ctr :=
      if (aggregateMetrics filtered).totalImpressions > 0 then
        (aggregateMetrics filtered).totalEngagement
          / (aggregateMetrics filtered).totalImpressions * 100
      else 0 }

/-- Modelled from the spec: the external `filterByDateRange` of
`src/lib/csvParser.ts` (absent from src/), per §4.2: the records whose
normalized date lies within the inclusive instant range, in original order
(the src call site's comment confirms the comparison is by `.getTime()`).
An invalid record date, or an invalid bound, satisfies no comparison —
NaN propagates — so such records are dropped. -/
def filterByDateRange (off : Int) (l : List CampaignData) (lo hi : Option Int) :
    List CampaignData :=
  l.filter (fun r =>
    match normalizeTime off r.date, lo, hi with
    | some t, some a, some b => decide (a ≤ t) && decide (t ≤ b)
    | _, _, _ => false)

/-- One creative's aggregated performance within the window
(src `AdPerformance`). -/
structure AdPerformance where
  creativeId : String
  totals : Aggregates
deriving DecidableEq

/-- Ranking order for top creatives: total spend descending, creative
identifier ascending on ties. -/
def rankLe (a b : AdPerformance) : Bool :=
  decide (b.totals.totalSpend < a.totals.totalSpend ∨
    (a.totals.totalSpend = b.totals.totalSpend ∧ a.creativeId ≤ b.creativeId))

/-- Modelled from the spec: the external `getTopCreatives` of
`src/lib/csvParser.ts` (absent from src/), per §4.4: group the records by
creative identity, sum each creative's measures over the window, order by
the ranking key — total spend descending, one of the two keys §9 recommends
— with ties broken by the creative identifier, and keep the first `n`. -/
def getTopCreatives (l : List CampaignData) (n : Nat) : List AdPerformance :=
  (((l.map (·.creativeId)).dedup.map (fun i =>
    { creativeId := i
      totals := aggregateMetrics (l.filter (fun r => r.creativeId == i)) })).mergeSort
        rankLe).take n

/-- One day of the trend series (src `CampaignTrend`): the local epoch-day
number and that day's aggregated measures. -/
structure CampaignTrend where
  day : Int
  totals : Aggregates
deriving DecidableEq

/-- Local epoch-day of a record's normalized date (the grouping key of spec
§4.5), `none` when the date is invalid. -/
def recDay (off : Int) (r : CampaignData) : Option Int :=
  (normalizeTime off r.date).map (localDays off)

/-- Modelled from the spec: the external `getCampaignTrends` of
`src/lib/csvParser.ts` (absent from src/), per §4.5: one aggregate entry per
local calendar day, oldest to newest, gap-filled with zero-valued entries so
the series is contiguous, the last entry on the anchor's day. The builder
receives only the record subset and the anchor (src line 99 passes
`filteredData` and `dateRange.to`), so the series can only start from the
data: it spans from the earliest record day (the anchor's day when there is
none, or when all records are later) through the anchor's day. An invalid
anchor yields an empty series. `trendStart` is the first day of the series:
the minimum of the records' days and the anchor's day. -/
def trendStart (off : Int) (l : List CampaignData) (a : Int) : Int :=
  (l.filterMap (recDay off)).foldr min (localDays off a)

/-- Modelled from the spec: the Trend Builder's series itself; see
`trendStart` for the full modelling note. -/
def getCampaignTrends (off : Int) (l : List CampaignData) (anchor : Option Int) :
    List CampaignTrend :=
  match anchor with
  | none => []
  | some a =>
    (List.range ((localDays off a - trendStart off l a).toNat + 1)).map
      (fun i =>
        { day := trendStart off l a + Int.ofNat i
          totals := aggregateMetrics (l.filter (fun r =>
            recDay off r == some (trendStart off l a + Int.ofNat i))) })

/-- The hook's `availableDateRange` (src lines 102-115): `null` when the
record store is empty; otherwise every record's date is normalized (strings
through `parseLocalDate`, other values through `new Date`), invalid ones are
dropped, the remainder sorted chronologically, and the first and last are
picked — each of which is `undefined` (`none`), exactly as `dates[0]` is in
JavaScript, when every date was invalid. -/
def availableDateRange (off : Int) (raw : List CampaignData) :
    Option (Option Int × Option Int) :=
  if raw = [] then none
  else
    some ((((raw.map (fun r => normalizeTime off r.date)).filterMap id).mergeSort
        (fun a b => decide (a ≤ b))).head?,
      (((raw.map (fun r => normalizeTime off r.date)).filterMap id).mergeSort
        (fun a b => decide (a ≤ b))).getLast?)

/-- The hook's derived outputs. -/
structure Views where
  filteredData : List CampaignData
  metricsView : DashboardMetrics
  topCreatives : List AdPerformance
  campaignTrends : List CampaignTrend
  availableDateRange : Option (Option Int × Option Int)

/-- The derived views of the hook as a function of the record store and the
selected range, mirroring the memoized computations of src lines 75-115:
without a range the filtered list and the trend series are `[]` (lines 76
and 98); with one, the filter, the metrics, the top-6 creatives and the
anchored trends are computed from it. -/
def pipelineViews (off : Int) (raw : List CampaignData) (dr : Option DateRange) : Views :=
  { filteredData := match dr with
      | none => []
      | some r => filterByDateRange off raw r.rFrom r.rTo
    metricsView := metrics (match dr with
      | none => []
      | some r => filterByDateRange off raw r.rFrom r.rTo)
    topCreatives := getTopCreatives (match dr with
      | none => []
      | some r => filterByDateRange off raw r.rFrom r.rTo) 6
    campaignTrends := match dr with
      | none => []
      | some r => getCampaignTrends off (filterByDateRange off raw r.rFrom r.rTo) r.rTo
    availableDateRange := availableDateRange off raw }

/- ### The orchestrator -/

/-- A thrown JavaScript value: an `Error` carrying a message, or any other
value. -/
inductive JsErr where
  | error (msg : String)
  | other
deriving DecidableEq

/-- The message the catch block extracts (src line 67):
`err instanceof Error ? err.message : 'Unknown error'`. -/
def errMsg : JsErr → String
  | .error m => m
  | .other => "Unknown error"

/-- Outcome of the `fetch` call: a thrown network error, or a response with
its `ok` flag and body text. -/
inductive FetchOutcome where
  | thrown (e : JsErr)
  | resp (ok : Bool) (text : String)

/-- The hook's orchestrator state. -/
structure HookState where
  rawData : List CampaignData
  loading : Bool
  error : Option String
  dateRange : Option DateRange
deriving DecidableEq

/-- The state the hook mounts with (src lines 38-41). -/
def initState : HookState :=
  { rawData := [], loading := true, error := none, dateRange := none }

/-- The auto-initialized range (src lines 55-62): `to` is the end of the
local day one day before `now`, and `from` the start of the local day six
days before `to`. -/
def autoRange (off now : Int) : DateRange :=
  { rFrom := startOfDay off (subDays off (endOfDay off (subDays off (some now) 1)) 6)
    rTo := endOfDay off (subDays off (some now) 1) }

/-- One complete run of the hook's `fetchData` (src lines 44-71): the
`try/catch/finally` with `setLoading(true)`, the non-ok check that throws
`new Error('Failed to fetch data')`, the parse (the external `parseCSV`,
which may throw, stands abstract as `parse`), the store update, the
conditional range auto-initialization, the error capture, and the
`finally`-guaranteed `setLoading(false)`. -/
def fetchData (parse : String → Except JsErr (List CampaignData))
    (outcome : FetchOutcome) (off now : Int) (s : HookState) : HookState :=
  match outcome with
  | .thrown e => { s with error := some (errMsg e), loading := false }
  | .resp ok text =>
    if ok then
      match parse text with
      | .error e => { s with error := some (errMsg e), loading := false }
      | .ok parsed =>
        { rawData := parsed
          dateRange := if parsed ≠ [] then some (autoRange off now) else s.dateRange
          error := none
          loading := false }
    else { s with error := some (errMsg (.error "Failed to fetch data")), loading := false }

/- ### Concrete fixtures for witnesses and counterexamples -/

/-- A record matching the spec's end-to-end scenario row. -/
def sampleRec : CampaignData :=
  { date := .str "2024-01-29", creativeId := "creative-a", spend := 100, conversions := 2,
    reach := 300, impressions := 1000, engagement := 50 }

/-- A record whose date string is not a date at all. -/
def badDateRec : CampaignData :=
  { date := .str "oops", creativeId := "creative-x", spend := 1, conversions := 0,
    reach := 0, impressions := 0, engagement := 0 }

/- ### Claim theorems -/

/-- C3: for every filtered subset, `avgCPA` equals
`totalSpend / totalConversions` when conversions are positive and is exactly
0 when they are 0, and `ctr` equals
`totalEngagement / totalImpressions × 100` when impressions are positive and
is exactly 0 when they are 0. The measures live in exact rational
arithmetic, where no NaN or infinity exists; the verified guards are
precisely what keeps the 0-denominator cases at 0. -/
theorem c3_metrics_ratio_guards (l : List CampaignData) :
    ((aggregateMetrics l).totalConversions > 0 →
      (metrics l).avgCPA
        = (aggregateMetrics l).totalSpend / (aggregateMetrics l).totalConversions)
    ∧ ((aggregateMetrics l).totalConversions = 0 → (metrics l).avgCPA = 0)
    ∧ ((aggregateMetrics l).totalImpressions > 0 →
      (metrics l).ctr
        = (aggregateMetrics l).totalEngagement / (aggregateMetrics l).totalImpressions * 100)
    ∧ ((aggregateMetrics l).totalImpressions = 0 → (metrics l).ctr = 0) := by
  refine ⟨fun h => ?_, fun h => ?_, fun h => ?_, fun h => ?_⟩ <;> simp [metrics, h]

/-- Witness for C3 at the spec's scenario record and at the empty subset. -/
theorem c3_metrics_ratio_guards_witness :
    (aggregateMetrics [sampleRec]).totalConversions > 0
    ∧ (metrics [sampleRec]).avgCPA
        = (aggregateMetrics [sampleRec]).totalSpend
          / (aggregateMetrics [sampleRec]).totalConversions
    ∧ (aggregateMetrics ([] : List CampaignData)).totalImpressions = 0
    ∧ (metrics ([] : List CampaignData)).ctr = 0 :=
  ⟨by norm_num [aggregateMetrics, sampleRec],
    (c3_metrics_ratio_guards [sampleRec]).1 (by norm_num [aggregateMetrics, sampleRec]),
    by norm_num [aggregateMetrics],
    (c3_metrics_ratio_guards []).2.2.2 (by norm_num [aggregateMetrics])⟩

/-- Failure classification of a fetch run: the thrown value that
`fetchData`'s catch block receives, if any (src lines 47-50 and 66-67). -/
def failKind (parse : String → Except JsErr (List CampaignData)) :
    FetchOutcome → Option JsErr
  | .thrown e => some e
  | .resp ok text =>
    if ok then
      match parse text with
      | .error e => some e
      | .ok _ => none
    else some (.error "Failed to fetch data")

/-- C4: the loading flag is cleared on every completion of `fetchData`, and
on any failure — thrown network error, non-ok response, or throwing parse —
the error field holds the extracted human-readable message while the record
store and the selected range are left untouched. -/
theorem c4_failure_handling (parse : String → Except JsErr (List CampaignData))
    (outcome : FetchOutcome) (off now : Int) (s : HookState) :
    (fetchData parse outcome off now s).loading = false
    ∧ (∀ e, failKind parse outcome = some e →
        (fetchData parse outcome off now s).error = some (errMsg e)
        ∧ (fetchData parse outcome off now s).rawData = s.rawData
        ∧ (fetchData parse outcome off now s).dateRange = s.dateRange) := by
  rcases outcome with e | ⟨ok, text⟩
  · simp [fetchData, failKind]
  · cases ok
    · simp [fetchData, failKind]
    · cases hp : parse text with
      | error e => simp [fetchData, failKind, hp]
      | ok parsed => simp [fetchData, failKind, hp]

/-- Witness for C4: a thrown non-`Error` value from the initial state. -/
theorem c4_failure_handling_witness :
    (fetchData (fun _ => Except.ok []) (.thrown .other) 0 0 initState).loading = false
    ∧ (fetchData (fun _ => Except.ok []) (.thrown .other) 0 0 initState).error
        = some "Unknown error"
    ∧ (fetchData (fun _ => Except.ok []) (.thrown .other) 0 0 initState).rawData = []
    ∧ (fetchData (fun _ => Except.ok []) (.thrown .other) 0 0 initState).dateRange = none :=
  ⟨(c4_failure_handling (fun _ => Except.ok []) (.thrown .other) 0 0 initState).1,
    ((c4_failure_handling (fun _ => Except.ok []) (.thrown .other) 0 0 initState).2
      .other rfl).1,
    ((c4_failure_handling (fun _ => Except.ok []) (.thrown .other) 0 0 initState).2
      .other rfl).2.1,
    ((c4_failure_handling (fun _ => Except.ok []) (.thrown .other) 0 0 initState).2
      .other rfl).2.2⟩

/-- C7: `availableDateRange` is a function of the record store alone — with
the same `rawData`, any two selected ranges (null included) yield the
identical `availableDateRange` output. -/
theorem c7_availableDateRange_range_independent (off : Int) (raw : List CampaignData)
    (r1 r2 : Option DateRange) :
    (pipelineViews off raw r1).availableDateRange
      = (pipelineViews off raw r2).availableDateRange := rfl

/-- C10: whenever the selected range is null, both `filteredData` and
`campaignTrends` are the empty list, for every record store. -/
theorem c10_null_range_empty_views (off : Int) (raw : List CampaignData) :
    (pipelineViews off raw none).filteredData = []
    ∧ (pipelineViews off raw none).campaignTrends = [] :=
  ⟨rfl, rfl⟩

/-- Valid normalized instants of a record store in original order: the
`.map(normalize).filter(valid)` prefix of the available-range computation
(src lines 106-108). -/
def validTimes (off : Int) (raw : List CampaignData) : List Int :=
  (raw.map (fun r => normalizeTime off r.date)).filterMap id

/-- Shape test used for stating C5: does the reported available range carry
two actual date values (as opposed to `null` or a pair holding
`undefined`)? -/
def isSomePair : Option (Option Int × Option Int) → Bool
  | some (some _, some _) => true
  | _ => false

/-- Heads of sorted lists are lower bounds. -/
theorem pairwise_head_le {l : List Int} (hs : l.Pairwise (· ≤ ·)) {a : Int}
    (ha : l.head? = some a) : ∀ t ∈ l, a ≤ t := by
  cases l with
  | nil => cases ha
  | cons x xs =>
    simp only [List.head?_cons, Option.some.injEq] at ha
    subst ha
    intro t ht
    rcases List.mem_cons.mp ht with h | h
    · exact h ▸ le_refl _
    · exact (List.pairwise_cons.mp hs).1 t h

/-- Last elements of sorted lists are upper bounds. -/
theorem pairwise_le_getLast {l : List Int} :
    l.Pairwise (· ≤ ·) → ∀ {a : Int}, l.getLast? = some a → ∀ t ∈ l, t ≤ a := by
  induction l with
  | nil => intro _ a ha; cases ha
  | cons x xs ih =>
    intro hs a ha t ht
    cases xs with
    | nil =>
      simp only [List.getLast?_singleton, Option.some.injEq] at ha
      subst ha
      simp only [List.mem_singleton] at ht
      exact ht ▸ le_refl _
    | cons y ys =>
      rw [List.getLast?_cons_cons] at ha
      rcases List.mem_cons.mp ht with h | h
      · subst h
        exact (List.pairwise_cons.mp hs).1 a (List.mem_of_getLast?_eq_some ha)
      · exact ih (List.pairwise_cons.mp hs).2 ha t h

/-- C5 (amended): the available range is `null` exactly when the record
store is empty, and whenever at least one record date survives
normalization, the range is a pair of dates `min ≤ max` that are the true
chronological extremes of the normalized valid dates. (A non-empty store
whose dates are all invalid instead yields a pair of `undefined`s — see the
counterexample.) -/
theorem c5_availableDateRange_extremes (off : Int) (raw : List CampaignData) :
    (availableDateRange off raw = none ↔ raw = [])
    ∧ (validTimes off raw ≠ [] →
        ∃ mn mx : Int,
          availableDateRange off raw = some (some mn, some mx)
          ∧ mn ≤ mx
          ∧ mn ∈ validTimes off raw ∧ mx ∈ validTimes off raw
          ∧ ∀ t ∈ validTimes off raw, mn ≤ t ∧ t ≤ mx) := by
  constructor
  · unfold availableDateRange
    split
    · simp_all
    · simp_all
  · intro hv
    have hraw : raw ≠ [] := by
      intro h
      exact hv (by simp [validTimes, h])
    have hperm := List.mergeSort_perm (validTimes off raw) (fun a b => decide (a ≤ b))
    have hsort := @List.sorted_mergeSort Int (fun a b : Int => decide (a ≤ b))
      (fun a b c hab hbc => by
        simp only [decide_eq_true_eq] at *
        omega)
      (fun a b => by
        simp only [Bool.or_eq_true, decide_eq_true_eq]
        exact Int.le_total a b)
      (validTimes off raw)
    have hsort' :
        ((validTimes off raw).mergeSort (fun a b => decide (a ≤ b))).Pairwise (· ≤ ·) :=
      hsort.imp (fun h => by simpa using h)
    have hne : (validTimes off raw).mergeSort (fun a b => decide (a ≤ b)) ≠ [] := by
      intro h
      apply hv
      have hl := hperm.length_eq
      rw [h] at hl
      exact List.length_eq_zero.mp hl.symm
    obtain ⟨mn, s', hcons⟩ := List.exists_cons_of_ne_nil hne
    have hmx : ∃ mx, ((validTimes off raw).mergeSort (fun a b => decide (a ≤ b))).getLast?
        = some mx := by
      cases hgl : ((validTimes off raw).mergeSort (fun a b => decide (a ≤ b))).getLast? with
      | none => exact absurd (List.getLast?_eq_none_iff.mp hgl) hne
      | some mx => exact ⟨mx, rfl⟩
    obtain ⟨mx, hmx⟩ := hmx
    have hmem_mn : mn ∈ (validTimes off raw).mergeSort (fun a b => decide (a ≤ b)) := by
      rw [hcons]; exact List.mem_cons_self mn s'
    have hmem_mx : mx ∈ (validTimes off raw).mergeSort (fun a b => decide (a ≤ b)) :=
      List.mem_of_getLast?_eq_some hmx
    have hhead : ((validTimes off raw).mergeSort (fun a b => decide (a ≤ b))).head?
        = some mn := by
      rw [hcons]; rfl
    refine ⟨mn, mx, ?_, ?_, ?_, ?_, ?_⟩
    · show (if raw = [] then none else some
        ((((raw.map (fun r => normalizeTime off r.date)).filterMap id).mergeSort
          (fun a b => decide (a ≤ b))).head?,
          (((raw.map (fun r => normalizeTime off r.date)).filterMap id).mergeSort
          (fun a b => decide (a ≤ b))).getLast?)) = some (some mn, some mx)
      rw [if_neg hraw]
      have h1 : (((raw.map (fun r => normalizeTime off r.date)).filterMap id).mergeSort
          (fun a b => decide (a ≤ b))).head? = some mn := hhead
      have h2 : (((raw.map (fun r => normalizeTime off r.date)).filterMap id).mergeSort
          (fun a b => decide (a ≤ b))).getLast? = some mx := hmx
      rw [h1, h2]
    · exact pairwise_le_getLast hsort' hmx mn hmem_mn
    · exact (hperm.mem_iff).mp hmem_mn
    · exact (hperm.mem_iff).mp hmem_mx
    · intro t ht
      have ht' : t ∈ (validTimes off raw).mergeSort (fun a b => decide (a ≤ b)) :=
        (hperm.mem_iff).mpr ht
      exact ⟨pairwise_head_le hsort' hhead t ht', pairwise_le_getLast hsort' hmx t ht'⟩

/-- Witness for C5 at a one-record store with a valid date and a negative
zone offset. -/
theorem c5_availableDateRange_extremes_witness :
    ∃ mn mx : Int,
      availableDateRange (-300) [sampleRec] = some (some mn, some mx)
      ∧ mn ≤ mx
      ∧ mn ∈ validTimes (-300) [sampleRec] ∧ mx ∈ validTimes (-300) [sampleRec]
      ∧ ∀ t ∈ validTimes (-300) [sampleRec], mn ≤ t ∧ t ≤ mx :=
  (c5_availableDateRange_extremes (-300) [sampleRec]).2 (by decide)

/-- C5 counterexample: a non-empty record store whose only date is invalid
is not reported as `null`, but as a pair of `undefined`s — not a pair of
dates with `min ≤ max`. -/
theorem c5_counterexample :
    [badDateRec] ≠ ([] : List CampaignData)
    ∧ availableDateRange 0 [badDateRec] = some (none, none)
    ∧ isSomePair (availableDateRange 0 [badDateRec]) = false := by
  have hbad : parseLocalDate 0 "oops" = none := by decide
  have h : availableDateRange 0 [badDateRec] = some (none, none) := by
    simp [availableDateRange, badDateRec, normalizeTime, hbad]
  exact ⟨by simp, h, by rw [h]; rfl⟩

/-- ECMAScript WhiteSpace and LineTerminator code points — the characters
`Number` trims from both ends of its string argument. -/
def isWsp (c : Char) : Bool :=
  decide (c.toNat = 9 ∨ c.toNat = 10 ∨ c.toNat = 11 ∨ c.toNat = 12 ∨ c.toNat = 13
    ∨ c.toNat = 32 ∨ c.toNat = 160 ∨ c.toNat = 5760
    ∨ (8192 ≤ c.toNat ∧ c.toNat ≤ 8202) ∨ c.toNat = 8232 ∨ c.toNat = 8233
    ∨ c.toNat = 8239 ∨ c.toNat = 8287 ∨ c.toNat = 12288 ∨ c.toNat = 65279)

/-- Strip leading and trailing JS whitespace. -/
def trimWsp (l : List Char) : List Char :=
  ((l.dropWhile isWsp).reverse.dropWhile isWsp).reverse

/-- Drop one optional leading sign. -/
def sgnStrip : List Char → List Char
  | [] => []
  | c :: rest => if c == '+' || c == '-' then rest else c :: rest

/-- Unsigned decimal mantissa: `digits`, `digits.digits`, `digits.` or
`.digits` (at least one digit overall). -/
def isMantissa (l : List Char) : Bool :=
  if (l.drop (l.takeWhile isDigit).length).isEmpty then !(l.takeWhile isDigit).isEmpty
  else if (l.drop (l.takeWhile isDigit).length).head? == some '.' then
    (l.drop (l.takeWhile isDigit).length).tail.all isDigit
      && (!(l.takeWhile isDigit).isEmpty
          || !(l.drop (l.takeWhile isDigit).length).tail.isEmpty)
  else false

/-- The part of `l` before its first exponent marker `e`/`E`. -/
def expPre (l : List Char) : List Char :=
  l.takeWhile (fun c => !(c == 'e' || c == 'E'))

/-- The part of `l` after its first exponent marker, if there is one. -/
def expTail (l : List Char) : Option (List Char) :=
  if (l.drop (expPre l).length).isEmpty then none
  else some (l.drop (expPre l).length).tail

/-- ExponentPart body: an optional sign then at least one decimal digit. -/
def isExpPart (l : List Char) : Bool :=
  !(sgnStrip l).isEmpty && (sgnStrip l).all isDigit

/-- StrUnsignedDecimalLiteral without `Infinity`: a decimal mantissa with
an optional exponent. -/
def isDecimalLit (l : List Char) : Bool :=
  isMantissa (expPre l) && ((expTail l).isNone || isExpPart ((expTail l).getD []))

/-- Hexadecimal digit. -/
def isHexDigit (c : Char) : Bool :=
  isDigit c || decide (97 ≤ c.toNat ∧ c.toNat ≤ 102) || decide (65 ≤ c.toNat ∧ c.toNat ≤ 70)

/-- Octal digit. -/
def isOctDigit (c : Char) : Bool := decide (48 ≤ c.toNat ∧ c.toNat ≤ 55)

/-- Binary digit. -/
def isBinDigit (c : Char) : Bool := c == '0' || c == '1'

/-- Unsigned radix literal: `0x`/`0X`, `0o`/`0O` or `0b`/`0B` followed by
at least one digit of the radix. -/
def isRadixLit : List Char → Bool
  | '0' :: x :: rest =>
    if x == 'x' || x == 'X' then !rest.isEmpty && rest.all isHexDigit
    else if x == 'o' || x == 'O' then !rest.isEmpty && rest.all isOctDigit
    else if x == 'b' || x == 'B' then !rest.isEmpty && rest.all isBinDigit
    else false
  | _ => false

/-- Recognizer for the strings JavaScript `Number` converts to a number —
the `StringNumericLiteral` grammar: after trimming whitespace and line
terminators, the empty string, an unsigned radix literal, a signed
`Infinity`, or a signed decimal literal with optional fraction and
exponent. `Number(s)` is NaN exactly when this is `false`. -/
def isNumericLit (l : List Char) : Bool :=
  (trimWsp l).isEmpty
  || isRadixLit (trimWsp l)
  || sgnStrip (trimWsp l) == ['I', 'n', 'f', 'i', 'n', 'i', 't', 'y']
  || isDecimalLit (sgnStrip (trimWsp l))

/-- Dash-split components of `s` do not begin with three JS-numeric
strings: fewer than three components, or a component that `Number` takes
to NaN among the first three. -/
def badDateShape (s : String) : Bool :=
  match splitDash s.data with
  | y :: m :: d :: _ => !isNumericLit y || !isNumericLit m || !isNumericLit d
  | _ => true

/-- A character in the sign/digit block is not JS whitespace. -/
theorem isWsp_false_of_range {c : Char} (h1 : 43 ≤ c.toNat) (h2 : c.toNat ≤ 57) :
    isWsp c = false := by
  unfold isWsp
  simp only [decide_eq_false_iff_not]
  omega

/-- A decimal digit is not JS whitespace. -/
theorem isWsp_false_of_digit {c : Char} (h : isDigit c = true) : isWsp c = false := by
  simp only [isDigit, decide_eq_true_eq] at h
  exact isWsp_false_of_range (by omega) (by omega)

/-- A decimal digit is not an exponent marker. -/
theorem digit_not_expMark {c : Char} (h : isDigit c = true) :
    (!(c == 'e' || c == 'E')) = true := by
  simp only [isDigit, decide_eq_true_eq] at h
  simp only [Bool.not_eq_true', Bool.or_eq_false_iff, beq_eq_false_iff_ne]
  constructor
  · intro hc
    rw [hc] at h
    exact absurd h (by decide)
  · intro hc
    rw [hc] at h
    exact absurd h (by decide)

/-- `takeWhile` keeps a list all of whose elements satisfy the test. -/
theorem takeWhile_all_eq_self {p : Char → Bool} {l : List Char}
    (h : ∀ c ∈ l, p c = true) : l.takeWhile p = l := by
  induction l with
  | nil => rfl
  | cons a t ih =>
    rw [List.takeWhile_cons]
    simp [h a (List.mem_cons_self a t), ih (fun c hc => h c (List.mem_cons_of_mem a hc))]

/-- `dropWhile` keeps a list none of whose elements satisfies the test. -/
theorem dropWhile_none_eq_self {p : Char → Bool} {l : List Char}
    (h : ∀ c ∈ l, p c = false) : l.dropWhile p = l := by
  cases l with
  | nil => rfl
  | cons a t =>
    rw [List.dropWhile_cons]
    simp [h a (List.mem_cons_self a t)]

/-- Trimming does nothing to a whitespace-free list. -/
theorem trimWsp_eq_self {l : List Char} (h : ∀ c ∈ l, isWsp c = false) :
    trimWsp l = l := by
  unfold trimWsp
  rw [dropWhile_none_eq_self h,
    dropWhile_none_eq_self (fun c hc => h c (List.mem_reverse.mp hc)),
    List.reverse_reverse]

/-- A sign followed by digits is whitespace-free. -/
theorem wsp_free_sign_digits {c : Char} {cs : List Char}
    (hc : c = '-' ∨ c = '+') (hd : cs.all isDigit = true) :
    ∀ x ∈ c :: cs, isWsp x = false := by
  intro x hx
  rcases List.mem_cons.mp hx with h | h
  · subst h
    rcases hc with h | h <;> subst h <;> decide
  · exact isWsp_false_of_digit (List.all_eq_true.mp hd x h)

/-- A nonempty digit string is a valid decimal mantissa. -/
theorem isMantissa_digits {cs : List Char} (hne : cs ≠ []) (hd : cs.all isDigit = true) :
    isMantissa cs = true := by
  have htw : cs.takeWhile isDigit = cs := takeWhile_all_eq_self (List.all_eq_true.mp hd)
  unfold isMantissa
  rw [htw, List.drop_length]
  simp [List.isEmpty_iff, hne]

/-- A nonempty digit string is a valid decimal literal. -/
theorem isDecimalLit_digits {cs : List Char} (hne : cs ≠ []) (hd : cs.all isDigit = true) :
    isDecimalLit cs = true := by
  have hpre : expPre cs = cs :=
    takeWhile_all_eq_self (fun c hc => digit_not_expMark (List.all_eq_true.mp hd c hc))
  unfold isDecimalLit expTail
  rw [hpre, List.drop_length]
  simp [isMantissa_digits hne hd]

/-- Soundness of the partial value model: any string it values is a
numeric literal of the full grammar. -/
theorem isNumericLit_of_jsNumberChars {l : List Char} {v : Int}
    (h : jsNumberChars l = some v) : isNumericLit l = true := by
  cases l with
  | nil => decide
  | cons c cs =>
    simp only [jsNumberChars] at h
    split_ifs at h with h1 h2 h3 h4 h5
    · obtain ⟨hne, hdig⟩ := h2
      subst h1
      have htrim : trimWsp ('-' :: cs) = '-' :: cs :=
        trimWsp_eq_self (wsp_free_sign_digits (Or.inl rfl) hdig)
      have hstrip : sgnStrip ('-' :: cs) = cs := by simp [sgnStrip]
      unfold isNumericLit
      rw [htrim, hstrip]
      simp [isDecimalLit_digits hne hdig]
    · obtain ⟨hne, hdig⟩ := h4
      subst h3
      have htrim : trimWsp ('+' :: cs) = '+' :: cs :=
        trimWsp_eq_self (wsp_free_sign_digits (Or.inr rfl) hdig)
      have hstrip : sgnStrip ('+' :: cs) = cs := by simp [sgnStrip]
      unfold isNumericLit
      rw [htrim, hstrip]
      simp [isDecimalLit_digits hne hdig]
    · have hne : c :: cs ≠ [] := by simp
      have htrim : trimWsp (c :: cs) = c :: cs :=
        trimWsp_eq_self (fun x hx => isWsp_false_of_digit (List.all_eq_true.mp h5 x hx))
      have hstrip : sgnStrip (c :: cs) = c :: cs := by
        have h2' : (c == '+') = false := beq_eq_false_iff_ne.mpr h3
        have h1' : (c == '-') = false := beq_eq_false_iff_ne.mpr h1
        simp [sgnStrip, h1', h2']
      unfold isNumericLit
      rw [htrim, hstrip]
      simp [isDecimalLit_digits hne h5]

/-- Contrapositive: a non-numeric string is valued NaN by the model. -/
theorem jsNumberChars_none {l : List Char} (h : isNumericLit l = false) :
    jsNumberChars l = none := by
  cases hj : jsNumberChars l with
  | none => rfl
  | some v =>
    rw [isNumericLit_of_jsNumberChars hj] at h
    exact absurd h (by simp)

/-- C6 (amended): a date string with fewer than three dash-separated
components, or whose first three components include one that `Number`
takes to NaN (per the JS `StringNumericLiteral` grammar: optional
whitespace and sign, decimal with optional fraction and exponent,
`Infinity`, or an unsigned radix literal), normalizes to an invalid
(NaN-time) date; and a record carrying an invalid date is simply dropped
from the available-range computation rather than aborting it. (A string
with three numeric components followed by extra ones — see the
counterexample — parses to a valid date, so the original "does not
decompose into three numeric components" condition is too wide.) -/
theorem c6_invalid_date_handling (off : Int) :
    (∀ s : String, badDateShape s = true → parseLocalDate off s = none)
    ∧ (∀ (bad : CampaignData) (rest : List CampaignData),
        normalizeTime off bad.date = none → rest ≠ [] →
        availableDateRange off (bad :: rest) = availableDateRange off rest) := by
  constructor
  · intro s hb
    unfold badDateShape at hb
    unfold parseLocalDate
    rcases hl : splitDash s.data with _ | ⟨y, _ | ⟨m, _ | ⟨d, tl⟩⟩⟩
    · simp [jsNewDate3]
    · cases hy : jsNumberChars y <;> simp [jsNewDate3]
    · cases hy : jsNumberChars y <;> cases hm : jsNumberChars m <;> simp [jsNewDate3]
    · rw [hl] at hb
      have hb' : (!isNumericLit y || !isNumericLit m || !isNumericLit d : Bool) = true := hb
      simp only [Bool.or_eq_true, Bool.not_eq_true'] at hb'
      rcases hb' with (h | h) | h
      · simp [jsNewDate3, jsNumberChars_none h]
      · cases hy : jsNumberChars y <;> simp [jsNewDate3, jsNumberChars_none h]
      · cases hy : jsNumberChars y <;> cases hm : jsNumberChars m <;>
          simp [jsNewDate3, jsNumberChars_none h]
  · intro bad rest hbad hrest
    unfold availableDateRange
    rw [if_neg (by simp), if_neg hrest]
    simp [hbad]

/-- Witness for C6: a two-component string and a three-component string
with a non-numeric first component both normalize to NaN, and a record
with an unparseable date drops out of the available range. -/
theorem c6_invalid_date_handling_witness :
    badDateShape "1-2" = true ∧ parseLocalDate 7 "1-2" = none
    ∧ badDateShape "12a-3-4" = true ∧ parseLocalDate 7 "12a-3-4" = none
    ∧ normalizeTime 7 badDateRec.date = none
    ∧ availableDateRange 7 [badDateRec, sampleRec] = availableDateRange 7 [sampleRec] :=
  ⟨by decide, (c6_invalid_date_handling 7).1 "1-2" (by decide),
   by decide, (c6_invalid_date_handling 7).1 "12a-3-4" (by decide),
   by decide, (c6_invalid_date_handling 7).2 badDateRec [sampleRec] (by decide) (by simp)⟩

/-- C6 counterexample: `"1-2-3-4"` does not decompose into three numeric
components — it has four — yet the normalizer returns a valid date
(1901-02-03 local), not a NaN result. -/
theorem c6_counterexample :
    ((splitDash ("1-2-3-4".data)).map jsNumberChars).length = 4
    ∧ (parseLocalDate 0 "1-2-3-4").isSome = true :=
  ⟨by decide, by decide⟩

/-- The ranking order is transitive. -/
theorem rankLe_trans (a b c : AdPerformance) (hab : rankLe a b) (hbc : rankLe b c) :
    rankLe a c := by
  simp only [rankLe, decide_eq_true_eq] at *
  rcases hab with h | ⟨h1, h2⟩ <;> rcases hbc with h' | ⟨h1', h2'⟩
  · exact Or.inl (by linarith)
  · exact Or.inl (by linarith)
  · exact Or.inl (by linarith)
  · exact Or.inr ⟨by linarith, le_trans h2 h2'⟩

/-- The ranking order is total. -/
theorem rankLe_total (a b : AdPerformance) : rankLe a b || rankLe b a := by
  simp only [rankLe, Bool.or_eq_true, decide_eq_true_eq]
  rcases lt_trichotomy a.totals.totalSpend b.totals.totalSpend with h | h | h
  · exact Or.inr (Or.inl h)
  · rcases le_total a.creativeId b.creativeId with hi | hi
    · exact Or.inl (Or.inr ⟨h, hi⟩)
    · exact Or.inr (Or.inr ⟨h.symm, hi⟩)
  · exact Or.inl (Or.inl h)

/-- C9: with the default `N = 6`, the top-creatives view has exactly
`min 6 (number of distinct creatives)` entries — in particular never more
than 6 — and its order is descending in the ranking key (total spend) with
the deterministic identifier tie-break. Repeat evaluation is identical
because the ranker is a pure function of the subset. -/
theorem c9_topCreatives_ranking (l : List CampaignData) :
    (getTopCreatives l 6).length = min 6 ((l.map (·.creativeId)).dedup.length)
    ∧ (getTopCreatives l 6).Pairwise (fun a b => rankLe a b = true) := by
  constructor
  · simp [getTopCreatives]
  · unfold getTopCreatives
    exact ((List.sorted_mergeSort rankLe_trans rankLe_total _).sublist
      (List.take_sublist 6 _)).imp id

/-- The first day of the trend series never lies after the anchor's day. -/
theorem trendStart_le (off : Int) (l : List CampaignData) (a : Int) :
    trendStart off l a ≤ localDays off a := by
  unfold trendStart
  induction l.filterMap (recDay off) with
  | nil => exact le_refl _
  | cons b bs ih => exact le_trans (min_le_right _ _) ih

/-- C8 (amended): for every subset and valid anchor, the trend series has
exactly one entry per calendar day from the earliest record day (the
anchor's day when there is none) through the anchor's day, in ascending day
order; the final entry's day is the anchor's calendar day; and a day with no
matching records carries the zero-valued aggregate. (The builder receives
only the subset and the anchor — src line 99 — so no series produced by it
can span `[from, to]` for every range: see the counterexample.) -/
theorem c8_trend_series (off : Int) (l : List CampaignData) (a : Int) :
    (getCampaignTrends off l (some a)).map (·.day)
        = (List.range ((localDays off a - trendStart off l a).toNat + 1)).map
            (fun i => trendStart off l a + Int.ofNat i)
    ∧ (getCampaignTrends off l (some a)).length
        = (localDays off a - trendStart off l a).toNat + 1
    ∧ ((getCampaignTrends off l (some a)).getLast?).map (·.day) = some (localDays off a)
    ∧ ∀ e ∈ getCampaignTrends off l (some a),
        l.filter (fun r => recDay off r == some e.day) = [] →
          e.totals = aggregateMetrics [] := by
  have hlen : (getCampaignTrends off l (some a)).length
      = (localDays off a - trendStart off l a).toNat + 1 := by
    unfold getCampaignTrends
    rw [List.length_map, List.length_range]
  refine ⟨?_, hlen, ?_, ?_⟩
  · unfold getCampaignTrends
    rw [List.map_map]
    rfl
  · have hst := trendStart_le off l a
    rw [List.getLast?_eq_getElem?, hlen]
    unfold getCampaignTrends
    rw [List.getElem?_map, List.getElem?_range (by omega)]
    simp only [Option.map_some']
    congr 1
    simp only [Int.ofNat_eq_coe]
    omega
  · intro e he hf
    rcases List.mem_map.mp he with ⟨i, hi, rfl⟩
    show aggregateMetrics (l.filter (fun r =>
      recDay off r == some (trendStart off l a + Int.ofNat i))) = aggregateMetrics []
    rw [hf]

/-- Witness for C8 at the empty subset anchored at the epoch. -/
theorem c8_trend_series_witness :
    ((getCampaignTrends 0 [] (some 0)).getLast?).map (·.day) = some (localDays 0 0)
    ∧ ({ day := 0, totals := aggregateMetrics [] } : CampaignTrend).totals
        = aggregateMetrics [] := by
  have hser : getCampaignTrends 0 [] (some 0)
      = [{ day := 0, totals := aggregateMetrics [] }] := rfl
  refine ⟨(c8_trend_series 0 [] 0).2.2.1, ?_⟩
  exact (c8_trend_series 0 [] 0).2.2.2 { day := 0, totals := aggregateMetrics [] }
    (by rw [hser]; exact List.mem_singleton_self _) rfl

/-- C8 counterexample: with an empty subset and the active range spanning
two local calendar days, the series has a single entry, not one entry per
day of `[from, to]`. -/
theorem c8_counterexample :
    (pipelineViews 0 [] (some { rFrom := some 0, rTo := some msPerDay })).campaignTrends.length
        = 1
    ∧ localDays 0 msPerDay - localDays 0 0 + 1 = 2 := by
  exact ⟨rfl, by decide⟩

/-- Numeric value of a digit character. -/
def digitV (c : Char) : Int := (c.toNat : Int) - 48

/-- A digit character is not a separator or a sign, and passes `isDigit`. -/
theorem digit_char_facts {c : Char} (h1 : 48 ≤ c.toNat) (h2 : c.toNat ≤ 57) :
    c ≠ '-' ∧ c ≠ '+' ∧ isDigit c = true := by
  refine ⟨?_, ?_, ?_⟩
  · intro he; rw [he] at h1; exact absurd h1 (by decide)
  · intro he; rw [he] at h1; exact absurd h1 (by decide)
  · simp only [isDigit, decide_eq_true_eq]; omega

/-- Splitting a `YYYY-MM-DD`-shaped character list on the dashes. -/
theorem splitDash_ymd {a1 a2 a3 a4 b1 b2 e1 e2 : Char}
    (h1 : a1 ≠ '-') (h2 : a2 ≠ '-') (h3 : a3 ≠ '-') (h4 : a4 ≠ '-')
    (h5 : b1 ≠ '-') (h6 : b2 ≠ '-') (h7 : e1 ≠ '-') (h8 : e2 ≠ '-') :
    splitDash [a1, a2, a3, a4, '-', b1, b2, '-', e1, e2]
      = [[a1, a2, a3, a4], [b1, b2], [e1, e2]] := by
  simp [splitDash, h1, h2, h3, h4, h5, h6, h7, h8]

/-- `Number` on a two-digit component. -/
theorem jsNumberChars_digits2 {b1 b2 : Char}
    (h1 : 48 ≤ b1.toNat) (h2 : b1.toNat ≤ 57) (h3 : 48 ≤ b2.toNat) (h4 : b2.toNat ≤ 57) :
    jsNumberChars [b1, b2] = some (10 * digitV b1 + digitV b2) := by
  obtain ⟨hm, hp, hd⟩ := digit_char_facts h1 h2
  obtain ⟨_, _, hd'⟩ := digit_char_facts h3 h4
  simp only [jsNumberChars]
  rw [if_neg hm, if_neg hp, if_pos (by simp [hd, hd'])]
  unfold digitsVal digitV
  simp only [List.foldl_cons, List.foldl_nil, Option.some.injEq]
  omega

/-- `Number` on a four-digit component. -/
theorem jsNumberChars_digits4 {a1 a2 a3 a4 : Char}
    (h1 : 48 ≤ a1.toNat) (h2 : a1.toNat ≤ 57) (h3 : 48 ≤ a2.toNat) (h4 : a2.toNat ≤ 57)
    (h5 : 48 ≤ a3.toNat) (h6 : a3.toNat ≤ 57) (h7 : 48 ≤ a4.toNat) (h8 : a4.toNat ≤ 57) :
    jsNumberChars [a1, a2, a3, a4]
      = some (1000 * digitV a1 + 100 * digitV a2 + 10 * digitV a3 + digitV a4) := by
  obtain ⟨hm, hp, hd⟩ := digit_char_facts h1 h2
  obtain ⟨_, _, hd2⟩ := digit_char_facts h3 h4
  obtain ⟨_, _, hd3⟩ := digit_char_facts h5 h6
  obtain ⟨_, _, hd4⟩ := digit_char_facts h7 h8
  simp only [jsNumberChars]
  rw [if_neg hm, if_neg hp, if_pos (by simp [hd, hd2, hd3, hd4])]
  unfold digitsVal digitV
  simp only [List.foldl_cons, List.foldl_nil, Option.some.injEq]
  omega

/-- Validity of the `Date` constructor on an in-range civil triple: the
result is the uncliped local-midnight instant, its local time of day is 0
and its local civil components are the inputs. -/
theorem jsNewDate3_valid {off Y M D : Int} (ho1 : -1440 ≤ off) (ho2 : off ≤ 1440)
    (hy1 : 100 ≤ Y) (hy2 : Y ≤ 9999) (hm1 : 1 ≤ M) (hm2 : M ≤ 12)
    (hd1 : 1 ≤ D) (hd2 : D ≤ monthLen (isLeap Y) M) :
    jsNewDate3 off (some Y) (some (M - 1)) (some D)
      = some (ecMakeDay Y (M - 1) D * msPerDay - off * 60000)
    ∧ localTimeOfDay off (ecMakeDay Y (M - 1) D * msPerDay - off * 60000) = 0
    ∧ localCivil off (ecMakeDay Y (M - 1) D * msPerDay - off * 60000) = (Y, M, D) := by
  have hmk := ecMakeDay_eq (y := Y) (d := D) hm1 hm2
  have hcb := cumDays_bounds hm1 hm2 hd1 hd2
  have hcb1 : 0 ≤ cumDays (isLeap Y) M + D - 1 := hcb.1
  have hcb2 : cumDays (isLeap Y) M + D - 1 < 366 := by
    rcases hcb with ⟨_, hub⟩
    split at hub <;> omega
  have hds1 : daysToYearStart 1 = -719162 := by decide
  have hds2 : daysToYearStart 10000 = 2932897 := by decide
  have hmo1 := daysToYearStart_mono (show (1 : Int) ≤ Y by omega)
  have hmo2 := daysToYearStart_mono (show Y ≤ 10000 by omega)
  refine ⟨?_, ?_, ?_⟩
  · show timeClip (ecMakeDay (fullYear Y) (M - 1) D * msPerDay - off * 60000) = _
    have hfy : fullYear Y = Y := by
      unfold fullYear
      rw [if_neg (by omega)]
    rw [hfy]
    unfold timeClip msPerDay
    split
    · rfl
    · next hcond => exact absurd ⟨by omega, by omega⟩ hcond
  · unfold localTimeOfDay msPerDay
    omega
  · exact localCivil_makeDay (by omega) (by omega) hm1 hm2 hd1 hd2

/-- C1 (amended): for every `YYYY-MM-DD` string with valid calendar
components whose year field is at least 0100, and every host zone offset,
`parseLocalDate` returns a valid date anchored at local midnight of that
calendar day whose local year, month and day equal the string's components.
Four-digit years 0000–0099 are instead remapped to 1900–1999 by the
two-digit-year rule of the host `Date` constructor (see the
counterexample), which is the only deviation from the original claim. -/
theorem c1_parseLocalDate_components
    (off : Int) (ho1 : -1440 ≤ off) (ho2 : off ≤ 1440)
    (ch1 ch2 ch3 ch4 ch5 ch6 ch7 ch8 : Char)
    (dh1 : 48 ≤ ch1.toNat ∧ ch1.toNat ≤ 57) (dh2 : 48 ≤ ch2.toNat ∧ ch2.toNat ≤ 57)
    (dh3 : 48 ≤ ch3.toNat ∧ ch3.toNat ≤ 57) (dh4 : 48 ≤ ch4.toNat ∧ ch4.toNat ≤ 57)
    (dh5 : 48 ≤ ch5.toNat ∧ ch5.toNat ≤ 57) (dh6 : 48 ≤ ch6.toNat ∧ ch6.toNat ≤ 57)
    (dh7 : 48 ≤ ch7.toNat ∧ ch7.toNat ≤ 57) (dh8 : 48 ≤ ch8.toNat ∧ ch8.toNat ≤ 57)
    (hy : 100 ≤ 1000 * digitV ch1 + 100 * digitV ch2 + 10 * digitV ch3 + digitV ch4)
    (hm1 : 1 ≤ 10 * digitV ch5 + digitV ch6)
    (hm2 : 10 * digitV ch5 + digitV ch6 ≤ 12)
    (hd1 : 1 ≤ 10 * digitV ch7 + digitV ch8)
    (hd2 : 10 * digitV ch7 + digitV ch8
      ≤ monthLen
          (isLeap (1000 * digitV ch1 + 100 * digitV ch2 + 10 * digitV ch3 + digitV ch4))
          (10 * digitV ch5 + digitV ch6)) :
    parseLocalDate off (String.mk [ch1, ch2, ch3, ch4, '-', ch5, ch6, '-', ch7, ch8])
      = some (ecMakeDay
          (1000 * digitV ch1 + 100 * digitV ch2 + 10 * digitV ch3 + digitV ch4)
          (10 * digitV ch5 + digitV ch6 - 1)
          (10 * digitV ch7 + digitV ch8) * msPerDay - off * 60000)
    ∧ localTimeOfDay off (ecMakeDay
          (1000 * digitV ch1 + 100 * digitV ch2 + 10 * digitV ch3 + digitV ch4)
          (10 * digitV ch5 + digitV ch6 - 1)
          (10 * digitV ch7 + digitV ch8) * msPerDay - off * 60000) = 0
    ∧ localCivil off (ecMakeDay
          (1000 * digitV ch1 + 100 * digitV ch2 + 10 * digitV ch3 + digitV ch4)
          (10 * digitV ch5 + digitV ch6 - 1)
          (10 * digitV ch7 + digitV ch8) * msPerDay - off * 60000)
        = (1000 * digitV ch1 + 100 * digitV ch2 + 10 * digitV ch3 + digitV ch4,
           10 * digitV ch5 + digitV ch6, 10 * digitV ch7 + digitV ch8) := by
  obtain ⟨h1a, h1b⟩ := dh1
  obtain ⟨h2a, h2b⟩ := dh2
  obtain ⟨h3a, h3b⟩ := dh3
  obtain ⟨h4a, h4b⟩ := dh4
  obtain ⟨h5a, h5b⟩ := dh5
  obtain ⟨h6a, h6b⟩ := dh6
  obtain ⟨h7a, h7b⟩ := dh7
  obtain ⟨h8a, h8b⟩ := dh8
  have hsplit := splitDash_ymd (digit_char_facts h1a h1b).1 (digit_char_facts h2a h2b).1
    (digit_char_facts h3a h3b).1 (digit_char_facts h4a h4b).1 (digit_char_facts h5a h5b).1
    (digit_char_facts h6a h6b).1 (digit_char_facts h7a h7b).1 (digit_char_facts h8a h8b).1
  have hyv := jsNumberChars_digits4 h1a h1b h2a h2b h3a h3b h4a h4b
  have hmv := jsNumberChars_digits2 h5a h5b h6a h6b
  have hdv := jsNumberChars_digits2 h7a h7b h8a h8b
  have hps : parseLocalDate off (String.mk [ch1, ch2, ch3, ch4, '-', ch5, ch6, '-', ch7, ch8])
      = jsNewDate3 off
          (some (1000 * digitV ch1 + 100 * digitV ch2 + 10 * digitV ch3 + digitV ch4))
          (some (10 * digitV ch5 + digitV ch6 - 1))
          (some (10 * digitV ch7 + digitV ch8)) := by
    dsimp only [parseLocalDate]
    rw [hsplit]
    simp only [List.map_cons, List.map_nil, hyv, hmv, hdv]
    rfl
  have e1 : digitV ch1 = (ch1.toNat : Int) - 48 := rfl
  have e2 : digitV ch2 = (ch2.toNat : Int) - 48 := rfl
  have e3 : digitV ch3 = (ch3.toNat : Int) - 48 := rfl
  have e4 : digitV ch4 = (ch4.toNat : Int) - 48 := rfl
  obtain ⟨w1, w2, w3⟩ := jsNewDate3_valid (Y := 1000 * digitV ch1 + 100 * digitV ch2
      + 10 * digitV ch3 + digitV ch4) (M := 10 * digitV ch5 + digitV ch6)
      (D := 10 * digitV ch7 + digitV ch8) ho1 ho2 hy (by omega) hm1 hm2 hd1 hd2
  exact ⟨hps.trans w1, w2, w3⟩

/-- Witness for C1 at the string `2024-02-05` and the zone offset −300
minutes (UTC−5, a negative offset where a naive UTC parse would shift the
day backward). -/
theorem c1_parseLocalDate_components_witness :
    parseLocalDate (-300) (String.mk ['2', '0', '2', '4', '-', '0', '2', '-', '0', '5'])
      = some (ecMakeDay
          (1000 * digitV '2' + 100 * digitV '0' + 10 * digitV '2' + digitV '4')
          (10 * digitV '0' + digitV '2' - 1)
          (10 * digitV '0' + digitV '5') * msPerDay - (-300) * 60000)
    ∧ localTimeOfDay (-300) (ecMakeDay
          (1000 * digitV '2' + 100 * digitV '0' + 10 * digitV '2' + digitV '4')
          (10 * digitV '0' + digitV '2' - 1)
          (10 * digitV '0' + digitV '5') * msPerDay - (-300) * 60000) = 0
    ∧ localCivil (-300) (ecMakeDay
          (1000 * digitV '2' + 100 * digitV '0' + 10 * digitV '2' + digitV '4')
          (10 * digitV '0' + digitV '2' - 1)
          (10 * digitV '0' + digitV '5') * msPerDay - (-300) * 60000)
        = (1000 * digitV '2' + 100 * digitV '0' + 10 * digitV '2' + digitV '4',
           10 * digitV '0' + digitV '2', 10 * digitV '0' + digitV '5') :=
  c1_parseLocalDate_components (-300) (by decide) (by decide)
    '2' '0' '2' '4' '0' '2' '0' '5'
    (by decide) (by decide) (by decide) (by decide) (by decide) (by decide) (by decide)
    (by decide) (by decide) (by decide) (by decide) (by decide) (by decide)

/-- C1 counterexample: the valid `YYYY-MM-DD` string `0099-01-01` (year 99,
a valid calendar year) parses to local midnight of 1999-01-01, not of
0099-01-01: the constructor's two-digit-year rule remaps it, so the year
getter returns 1999, not 99. -/
theorem c1_counterexample :
    parseLocalDate 0 "0099-01-01" = some 915148800000
    ∧ localCivil 0 915148800000 = (1999, 1, 1) := by
  constructor
  · decide
  · have h : civilFromDays (ecMakeDay 1999 (1 - 1) 1) = (1999, 1, 1) :=
      civilFromDays_makeDay (by decide) (by decide) (by decide) (by decide) (by decide)
        (by decide)
    have he : localDays 0 915148800000 = ecMakeDay 1999 (1 - 1) 1 := by decide
    unfold localCivil
    rw [he, h]

/-- Day number of an instant sitting `r` milliseconds into local day `A`. -/
theorem localDays_mk {off A r : Int} (hr1 : 0 ≤ r) (hr2 : r < msPerDay) :
    localDays off (A * msPerDay + r - off * 60000) = A := by
  unfold localDays msPerDay at *
  omega

/-- Time of day of an instant sitting `r` milliseconds into local day `A`. -/
theorem localTimeOfDay_mk {off A r : Int} (hr1 : 0 ≤ r) (hr2 : r < msPerDay) :
    localTimeOfDay off (A * msPerDay + r - off * 60000) = r := by
  unfold localTimeOfDay msPerDay at *
  omega

/-- `timeClip` is the identity on representable time values. -/
theorem timeClip_of_bounds {x : Int} (hx1 : x ≤ 8640000000000000)
    (hx2 : -8640000000000000 ≤ x) : timeClip x = some x := by
  unfold timeClip
  rw [if_pos ⟨hx1, hx2⟩]

/-- `setDate` on an instant of known local components. -/
theorem jsSetDate_step {off A r v y m d : Int} (hr1 : 0 ≤ r) (hr2 : r < msPerDay)
    (hciv : civilFromDays A = (y, m, d)) :
    jsSetDate off (A * msPerDay + r - off * 60000) v
      = timeClip (ecMakeDay y (m - 1) v * msPerDay + r - off * 60000) := by
  unfold jsSetDate localCivil
  rw [localDays_mk hr1 hr2, hciv, localTimeOfDay_mk hr1 hr2]

/-- `subDays` on an instant of known local components. -/
theorem subDays_step {off A r n y m d : Int} (hr1 : 0 ≤ r) (hr2 : r < msPerDay)
    (hciv : civilFromDays A = (y, m, d)) :
    subDays off (some (A * msPerDay + r - off * 60000)) n
      = timeClip (ecMakeDay y (m - 1) (d - n) * msPerDay + r - off * 60000) := by
  show jsSetDate off (A * msPerDay + r - off * 60000)
      ((localCivil off (A * msPerDay + r - off * 60000)).2.2 - n) = _
  have hciv' : localCivil off (A * msPerDay + r - off * 60000) = (y, m, d) := by
    unfold localCivil
    rw [localDays_mk hr1 hr2, hciv]
  rw [hciv', jsSetDate_step hr1 hr2 hciv]

/-- `startOfDay` on an instant of known day number. -/
theorem startOfDay_step {off A r : Int} (hr1 : 0 ≤ r) (hr2 : r < msPerDay) :
    startOfDay off (some (A * msPerDay + r - off * 60000))
      = timeClip (A * msPerDay - off * 60000) := by
  show timeClip (localDays off (A * msPerDay + r - off * 60000) * msPerDay - off * 60000) = _
  rw [localDays_mk hr1 hr2]

/-- `endOfDay` on an instant of known day number. -/
theorem endOfDay_step {off A r : Int} (hr1 : 0 ≤ r) (hr2 : r < msPerDay) :
    endOfDay off (some (A * msPerDay + r - off * 60000))
      = timeClip (A * msPerDay + 86399999 - off * 60000) := by
  show timeClip (localDays off (A * msPerDay + r - off * 60000) * msPerDay + 86399999
      - off * 60000) = _
  rw [localDays_mk hr1 hr2]

/-- The auto-initialized range computed when the local clock reads
2024-02-05T10:00: `to` is the end of local 2024-02-04 (epoch day 19757) and
`from` the start of local 2024-01-29 (epoch day 19751), under every zone
offset. -/
theorem autoRange_feb2024 (off : Int) (ho1 : -1440 ≤ off) (ho2 : off ≤ 1440) :
    autoRange off (19758 * msPerDay + 36000000 - off * 60000)
      = { rFrom := some (19751 * msPerDay - off * 60000)
          rTo := some (19757 * msPerDay + 86399999 - off * 60000) } := by
  have hms : msPerDay = 86400000 := rfl
  have hc1 : civilFromDays (19758 : Int) = (2024, 2, 5) := by
    have h := civilFromDays_makeDay (y := 2024) (m := 2) (d := 5) (by decide) (by decide)
      (by decide) (by decide) (by decide) (by decide)
    rw [show ecMakeDay 2024 (2 - 1) 5 = 19758 from by decide] at h
    exact h
  have hc2 : civilFromDays (19757 : Int) = (2024, 2, 4) := by
    have h := civilFromDays_makeDay (y := 2024) (m := 2) (d := 4) (by decide) (by decide)
      (by decide) (by decide) (by decide) (by decide)
    rw [show ecMakeDay 2024 (2 - 1) 4 = 19757 from by decide] at h
    exact h
  have hs1 : subDays off (some (19758 * msPerDay + 36000000 - off * 60000)) 1
      = some (19757 * msPerDay + 36000000 - off * 60000) := by
    rw [subDays_step (by decide) (by decide) hc1,
      show ecMakeDay 2024 (2 - 1) (5 - 1) = 19757 from by decide]
    exact timeClip_of_bounds (by omega) (by omega)
  have hs2 : endOfDay off (some (19757 * msPerDay + 36000000 - off * 60000))
      = some (19757 * msPerDay + 86399999 - off * 60000) := by
    rw [endOfDay_step (by decide) (by decide)]
    exact timeClip_of_bounds (by omega) (by omega)
  have hs3 : subDays off (some (19757 * msPerDay + 86399999 - off * 60000)) 6
      = some (19751 * msPerDay + 86399999 - off * 60000) := by
    rw [subDays_step (by decide) (by decide) hc2,
      show ecMakeDay 2024 (2 - 1) (4 - 6) = 19751 from by decide]
    exact timeClip_of_bounds (by omega) (by omega)
  have hs4 : startOfDay off (some (19751 * msPerDay + 86399999 - off * 60000))
      = some (19751 * msPerDay - off * 60000) := by
    rw [startOfDay_step (by decide) (by decide)]
    exact timeClip_of_bounds (by omega) (by omega)
  unfold autoRange
  rw [hs1, hs2, hs3, hs4]

/-- `MakeDay` is linear in its day argument: out-of-range days shift the
day number one-for-one. -/
theorem ecMakeDay_sub (y m d n : Int) : ecMakeDay y m (d - n) = ecMakeDay y m d - n := by
  dsimp only [ecMakeDay]
  ring

/-- Every day number below the start of year `K` and at least the start of
year 1 falls inside some year below `K`. -/
theorem year_exists {K : Int} (hK : 1 ≤ K) (z : Int) (h1 : daysToYearStart 1 ≤ z) :
    z < daysToYearStart K →
    ∃ y : Int, 1 ≤ y ∧ y + 1 ≤ K ∧ daysToYearStart y ≤ z ∧ z < daysToYearStart (y + 1) :=
  Int.le_induction
    (P := fun K => z < daysToYearStart K →
      ∃ y : Int, 1 ≤ y ∧ y + 1 ≤ K ∧ daysToYearStart y ≤ z ∧ z < daysToYearStart (y + 1))
    (fun h2 => absurd h1 (by omega))
    (fun n hn ih h2 => by
      by_cases hc : z < daysToYearStart n
      · obtain ⟨y, hy1, hy2, hy3, hy4⟩ := ih hc
        exact ⟨y, hy1, by omega, hy3, hy4⟩
      · push_neg at hc
        exact ⟨n, hn, by omega, hc, h2⟩)
    K hK

set_option maxRecDepth 4000 in
/-- Finite check behind `civilFromDays_valid`: every day-of-year is mapped
to a month in 1..12 whose day offset is within that month. -/
theorem doy_core : ∀ (leap : Bool), ∀ doy' : Nat, doy' < 366 →
    (((doy' : Nat) : Int) < (if leap then 366 else 365) →
      1 ≤ monthFromDoy leap ((doy' : Nat) : Int)
      ∧ monthFromDoy leap ((doy' : Nat) : Int) ≤ 12
      ∧ cumDays leap (monthFromDoy leap ((doy' : Nat) : Int)) ≤ ((doy' : Nat) : Int)
      ∧ ((doy' : Nat) : Int) - cumDays leap (monthFromDoy leap ((doy' : Nat) : Int)) + 1
          ≤ monthLen leap (monthFromDoy leap ((doy' : Nat) : Int))) := by
  decide

/-- Section property of the calendar reading: every day number within the
covered years reads back as a valid civil triple that `MakeDay` maps to the
same day number. -/
theorem civilFromDays_valid {z : Int} (h1 : daysToYearStart 1 ≤ z)
    (h2 : z < daysToYearStart 10001) :
    ∃ y m d : Int, civilFromDays z = (y, m, d) ∧ 1 ≤ y ∧ y ≤ 10000 ∧ 1 ≤ m ∧ m ≤ 12
      ∧ 1 ≤ d ∧ d ≤ monthLen (isLeap y) m ∧ ecMakeDay y (m - 1) d = z := by
  obtain ⟨y, hy1, hyK, hylo, hyhi⟩ := year_exists (by norm_num) z h1 h2
  have hy2 : y ≤ 10000 := by omega
  have hyz : yearFromDays z = y := yearFromDays_eq hy1 hy2 hylo hyhi
  have hdoy2 : z - daysToYearStart y < (if isLeap y then 366 else 365) := by
    rw [daysToYearStart_succ] at hyhi
    cases hL : isLeap y <;> simp [hL] at hyhi ⊢ <;> omega
  have hdoy1 : 0 ≤ z - daysToYearStart y := by omega
  have hcast : (((z - daysToYearStart y).toNat : Nat) : Int) = z - daysToYearStart y := by
    omega
  have hlt366 : (z - daysToYearStart y).toNat < 366 := by
    cases hL : isLeap y <;> simp [hL] at hdoy2 <;> omega
  have hcore := doy_core (isLeap y) (z - daysToYearStart y).toNat hlt366
    (by rw [hcast]; exact hdoy2)
  rw [hcast] at hcore
  obtain ⟨hm1, hm2, hcum, hdle⟩ := hcore
  refine ⟨y, monthFromDoy (isLeap y) (z - daysToYearStart y),
    z - daysToYearStart y
      - cumDays (isLeap y) (monthFromDoy (isLeap y) (z - daysToYearStart y)) + 1,
    ?_, hy1, hy2, hm1, hm2, by omega, hdle, ?_⟩
  · unfold civilFromDays
    rw [hyz]
  · rw [ecMakeDay_eq hm1 hm2]
    omega

/-- The auto-initialized range for an arbitrary current instant (whose local
day lies within the covered years): `to` is the end of the local day one day
before `now`, and `from` the start of the local day six days before `to`. -/
theorem autoRange_general (off : Int) (ho1 : -1440 ≤ off) (ho2 : off ≤ 1440) (now : Int)
    (hn1 : daysToYearStart 1 + 7 ≤ localDays off now)
    (hn2 : localDays off now < daysToYearStart 10001) :
    autoRange off now
      = { rFrom := some ((localDays off now - 7) * msPerDay - off * 60000)
          rTo := some ((localDays off now - 1) * msPerDay + 86399999 - off * 60000) } := by
  have hb1 : daysToYearStart 1 = -719162 := by decide
  have hb2 : daysToYearStart 10001 = 2933263 := by decide
  have ht1 : 0 ≤ localTimeOfDay off now := by
    unfold localTimeOfDay msPerDay
    omega
  have ht2 : localTimeOfDay off now < msPerDay := by
    unfold localTimeOfDay msPerDay
    omega
  have ht2n : localTimeOfDay off now < 86400000 := ht2
  have hnow : now = localDays off now * msPerDay + localTimeOfDay off now - off * 60000 := by
    unfold localDays localTimeOfDay msPerDay
    omega
  obtain ⟨y1, m1, d1, hciv1, hy11, hy12, hm11, hm12, hd11, hd12, hmk1⟩ :=
    civilFromDays_valid (z := localDays off now) (by omega) (by omega)
  obtain ⟨y2, m2, d2, hciv2, hy21, hy22, hm21, hm22, hd21, hd22, hmk2⟩ :=
    civilFromDays_valid (z := localDays off now - 1) (by omega) (by omega)
  have hsh1 : ecMakeDay y1 (m1 - 1) (d1 - 1) = localDays off now - 1 := by
    rw [ecMakeDay_sub]
    omega
  have hsh2 : ecMakeDay y2 (m2 - 1) (d2 - 6) = localDays off now - 7 := by
    rw [ecMakeDay_sub]
    omega
  have hs1 : subDays off (some now) 1
      = some ((localDays off now - 1) * msPerDay + localTimeOfDay off now - off * 60000) := by
    conv_lhs => rw [hnow]
    rw [subDays_step ht1 ht2 hciv1, hsh1]
    exact timeClip_of_bounds (by unfold msPerDay; omega) (by unfold msPerDay; omega)
  have hs2 : endOfDay off (some ((localDays off now - 1) * msPerDay + localTimeOfDay off now
      - off * 60000)) = some ((localDays off now - 1) * msPerDay + 86399999 - off * 60000) := by
    rw [endOfDay_step ht1 ht2]
    exact timeClip_of_bounds (by unfold msPerDay; omega) (by unfold msPerDay; omega)
  have hs3 : subDays off (some ((localDays off now - 1) * msPerDay + 86399999 - off * 60000)) 6
      = some ((localDays off now - 7) * msPerDay + 86399999 - off * 60000) := by
    rw [subDays_step (by decide) (by decide) hciv2, hsh2]
    exact timeClip_of_bounds (by unfold msPerDay; omega) (by unfold msPerDay; omega)
  have hs4 : startOfDay off (some ((localDays off now - 7) * msPerDay + 86399999
      - off * 60000)) = some ((localDays off now - 7) * msPerDay - off * 60000) := by
    rw [startOfDay_step (by decide) (by decide)]
    exact timeClip_of_bounds (by unfold msPerDay; omega) (by unfold msPerDay; omega)
  unfold autoRange
  rw [hs1, hs2, hs3, hs4]

/-- The instant whose local clock reads 2024-02-05T10:00:00 under zone
offset `off` (the "now" of the spec's auto-range scenario). -/
def nowFeb2024 (off : Int) : Int :=
  ecMakeDay 2024 1 5 * msPerDay + 36000000 - off * 60000

/-- C2 (amended): after a successful fetch parsing a non-empty record set,
the selected range is auto-initialized to `to` = the end of the local day
one day before `now` and `from` = the start of the local day six days
before `to`, for every current instant whose local day lies in the model's
covered years and every zone offset; in particular, with the local clock
at 2024-02-05T10:00 the range runs from 2024-01-29T00:00:00.000 to
2024-02-04T23:59:59.999 local. The original claim's instance
`from = 2024-01-30` contradicts its own "6 days before `to`" clause: six
days before Feb 4 is Jan 29, which is what the code computes. -/
theorem c2_auto_range (parse : String → Except JsErr (List CampaignData))
    (text : String) (l : List CampaignData) (hp : parse text = Except.ok l) (hl : l ≠ [])
    (off : Int) (ho1 : -1440 ≤ off) (ho2 : off ≤ 1440) (now : Int)
    (hn1 : daysToYearStart 1 + 7 ≤ localDays off now)
    (hn2 : localDays off now < daysToYearStart 10001) (s : HookState) :
    ((fetchData parse (.resp true text) off now s).dateRange
      = some { rFrom := some ((localDays off now - 7) * msPerDay - off * 60000)
               rTo := some ((localDays off now - 1) * msPerDay + 86399999 - off * 60000) }
     ∧ localDays off ((localDays off now - 1) * msPerDay + 86399999 - off * 60000)
         = localDays off now - 1
     ∧ localTimeOfDay off ((localDays off now - 1) * msPerDay + 86399999 - off * 60000)
         = 86399999
     ∧ localDays off ((localDays off now - 7) * msPerDay - off * 60000)
         = (localDays off now - 1) - 6
     ∧ localTimeOfDay off ((localDays off now - 7) * msPerDay - off * 60000) = 0)
    ∧ ((fetchData parse (.resp true text) off (nowFeb2024 off) s).dateRange
      = some { rFrom := some (19751 * msPerDay - off * 60000)
               rTo := some (19757 * msPerDay + 86399999 - off * 60000) }
     ∧ localCivil off (19751 * msPerDay - off * 60000) = (2024, 1, 29)
     ∧ localTimeOfDay off (19751 * msPerDay - off * 60000) = 0
     ∧ localCivil off (19757 * msPerDay + 86399999 - off * 60000) = (2024, 2, 4)
     ∧ localTimeOfDay off (19757 * msPerDay + 86399999 - off * 60000) = 86399999) := by
  have hnow : nowFeb2024 off = 19758 * msPerDay + 36000000 - off * 60000 := by
    unfold nowFeb2024
    rw [show ecMakeDay 2024 1 5 = 19758 from by decide]
  refine ⟨⟨?_, ?_, ?_, ?_, ?_⟩, ?_, ?_, ?_, ?_, ?_⟩
  · simp only [fetchData, hp, if_true]
    rw [if_pos hl, autoRange_general off ho1 ho2 now hn1 hn2]
  · unfold localDays msPerDay
    omega
  · unfold localTimeOfDay localDays msPerDay
    omega
  · unfold localDays msPerDay
    omega
  · unfold localTimeOfDay localDays msPerDay
    omega
  · simp only [fetchData, hp, hnow, if_true]
    rw [if_pos hl, autoRange_feb2024 off ho1 ho2]
  · unfold localCivil
    rw [show localDays off (19751 * msPerDay - off * 60000) = 19751 from by
      unfold localDays msPerDay; omega]
    have h := civilFromDays_makeDay (y := 2024) (m := 1) (d := 29) (by decide) (by decide)
      (by decide) (by decide) (by decide) (by decide)
    rw [show ecMakeDay 2024 (1 - 1) 29 = 19751 from by decide] at h
    exact h
  · unfold localTimeOfDay msPerDay
    omega
  · unfold localCivil
    rw [show localDays off (19757 * msPerDay + 86399999 - off * 60000) = 19757 from by
      unfold localDays msPerDay; omega]
    have h := civilFromDays_makeDay (y := 2024) (m := 2) (d := 4) (by decide) (by decide)
      (by decide) (by decide) (by decide) (by decide)
    rw [show ecMakeDay 2024 (2 - 1) 4 = 19757 from by decide] at h
    exact h
  · unfold localTimeOfDay msPerDay
    omega

/-- Witness for C2: the general part instantiated at the instant whose
local clock reads 2024-02-05T10:00 under offset −300 (local day 19758),
together with the concrete-instance part. -/
theorem c2_auto_range_witness :
    localDays (-300) (nowFeb2024 (-300)) = 19758
    ∧ (((fetchData (fun _ => Except.ok [sampleRec]) (.resp true "t") (-300) (nowFeb2024 (-300))
        initState).dateRange
      = some { rFrom := some ((localDays (-300) (nowFeb2024 (-300)) - 7) * msPerDay
                 - (-300) * 60000)
               rTo := some ((localDays (-300) (nowFeb2024 (-300)) - 1) * msPerDay + 86399999
                 - (-300) * 60000) }
     ∧ localDays (-300) ((localDays (-300) (nowFeb2024 (-300)) - 1) * msPerDay + 86399999
         - (-300) * 60000) = localDays (-300) (nowFeb2024 (-300)) - 1
     ∧ localTimeOfDay (-300) ((localDays (-300) (nowFeb2024 (-300)) - 1) * msPerDay + 86399999
         - (-300) * 60000) = 86399999
     ∧ localDays (-300) ((localDays (-300) (nowFeb2024 (-300)) - 7) * msPerDay
         - (-300) * 60000) = (localDays (-300) (nowFeb2024 (-300)) - 1) - 6
     ∧ localTimeOfDay (-300) ((localDays (-300) (nowFeb2024 (-300)) - 7) * msPerDay
         - (-300) * 60000) = 0)
    ∧ ((fetchData (fun _ => Except.ok [sampleRec]) (.resp true "t") (-300) (nowFeb2024 (-300))
        initState).dateRange
      = some { rFrom := some (19751 * msPerDay - (-300) * 60000)
               rTo := some (19757 * msPerDay + 86399999 - (-300) * 60000) }
     ∧ localCivil (-300) (19751 * msPerDay - (-300) * 60000) = (2024, 1, 29)
     ∧ localTimeOfDay (-300) (19751 * msPerDay - (-300) * 60000) = 0
     ∧ localCivil (-300) (19757 * msPerDay + 86399999 - (-300) * 60000) = (2024, 2, 4)
     ∧ localTimeOfDay (-300) (19757 * msPerDay + 86399999 - (-300) * 60000) = 86399999)) :=
  ⟨by decide,
   c2_auto_range (fun _ => Except.ok [sampleRec]) "t" [sampleRec] rfl (by simp) (-300)
     (by decide) (by decide) (nowFeb2024 (-300)) (by decide) (by decide) initState⟩

/-- C2 counterexample: at zone offset 0 and now = 2024-02-05T10:00 local,
the auto-selected `from` is the instant 1706486400000 — local midnight of
2024-01-29 — and not local midnight of 2024-01-30 (the instant
`ecMakeDay 2024 0 30 * msPerDay` = 1706572800000) that the claim requires. -/
theorem c2_counterexample :
    (fetchData (fun _ => Except.ok [sampleRec]) (.resp true "csv") 0 (nowFeb2024 0)
        initState).dateRange
      = some { rFrom := some 1706486400000, rTo := some 1707091199999 }
    ∧ localCivil 0 1706486400000 = (2024, 1, 29)
    ∧ ecMakeDay 2024 0 30 * msPerDay ≠ 1706486400000 := by
  refine ⟨?_, ?_, by decide⟩
  · have hnow : nowFeb2024 0 = 19758 * msPerDay + 36000000 - 0 * 60000 := by
      unfold nowFeb2024
      rw [show ecMakeDay 2024 1 5 = 19758 from by decide]
    have hdr : (fetchData (fun _ => Except.ok [sampleRec]) (.resp true "csv") 0 (nowFeb2024 0)
        initState).dateRange = some (autoRange 0 (nowFeb2024 0)) := by
      simp [fetchData]
    rw [hdr, hnow, autoRange_feb2024 0 (by decide) (by decide)]
    decide
  · unfold localCivil
    rw [show localDays 0 1706486400000 = 19751 from by decide]
    have h := civilFromDays_makeDay (y := 2024) (m := 1) (d := 29) (by decide) (by decide)
      (by decide) (by decide) (by decide) (by decide)
    rw [show ecMakeDay 2024 (1 - 1) 29 = 19751 from by decide] at h
    exact h
